import Mathlib

/-!
Verification development for the foodscan backend (Flask + MongoDB + Cloudinary +
Gemini + local PyTorch models).  Python functions are shallowly embedded as Lean
functions: dictionaries become structures or association lists, machine floats
become `Rat` (with Python `round`'s half-even behaviour made explicit), fallible
code returns `Option`/`Except`, and the external collaborators (MongoDB,
Cloudinary, the Gemini API, the neural networks) are parameters or explicit
state, so that the repository's own control flow is what the theorems are about.
-/

/-! ## Shared helpers -/

/-- Round a rational to the nearest integer, ties to even — the behaviour of
Python's built-in `round` on the exact value of its argument. -/
def roundHalfEven (q : Rat) : Int :=
  let f : Int := ⌊q⌋
  let r : Rat := q - (f : Rat)
  if r < 1/2 then f
  else if 1/2 < r then f + 1
  else if f % 2 = 0 then f else f + 1

/-- Python `round(q, n)` modelled on rationals: scale by `10^n`, round half to
even, scale back. -/
def pyRound (n : Nat) (q : Rat) : Rat :=
  ((roundHalfEven (q * (10 : Rat) ^ n) : Rat)) / (10 : Rat) ^ n

/-- Python `str.lower()` (kernel-computable, character by character). -/
def pyLower (s : String) : String := ⟨s.data.map Char.toLower⟩

/-- Python `str.strip()`: drop leading and trailing whitespace. -/
def pyStrip (s : String) : String :=
  ⟨((s.data.dropWhile Char.isWhitespace).reverse.dropWhile Char.isWhitespace).reverse⟩

/-- Python `str.split('.')` on the character list (splitting on every dot,
keeping empty pieces, never returning an empty list). -/
def splitDot : List Char → List (List Char)
  | [] => [[]]
  | c :: rest =>
    match splitDot rest with
    | [] => [[c]]
    | h :: t => if c = '.' then [] :: h :: t else (c :: h) :: t

/-! ## Meal persistence model — `backend/models/user_meal.py`

`UserMeal.__init__` plus `to_dict` build the document inserted by
`create_meal`; `datetime.utcnow()` is modelled by a `now : Nat` tick supplied
by the environment, and the MongoDB collection by a list of rows. -/

/-- Source `UserMeal.VALID_MEAL_TYPES`. -/
def VALID_MEAL_TYPES : List String :=
  ["breakfast", "lunch", "dinner", "snacks", "drinks", "dessert", "unlabeled", "other"]

/-- Source `UserMeal._validate_food_type`: `None` defaults to `"other"`;
otherwise lowercase, strip, and keep the value only when it is in the enum
(the mismatch case logs a warning and also yields `"other"`). -/
def validateFoodType (food_type : Option String) : String :=
  match food_type with
  | none => "other"
  | some s =>
    let food_type_lower := pyStrip (pyLower s)
    if food_type_lower ∈ VALID_MEAL_TYPES then food_type_lower else "other"

/-- The document produced by `UserMeal.to_dict` (the `_id` is assigned by
MongoDB and tracked in `MealRow`). -/
structure MealDoc where
  user_id : String
  nutrients : List (String × Rat)
  image_url : Option String := none
  image_public_id : Option String := none
  meal_name : Option String := none
  notes : Option String := none
  food_type : String := "other"
  serving_size : Option String := none
  confidence_rate : Option Rat := none
  prediction_source : Option String := none
  ml_food_class : Option String := none
  user_edited : Bool := false
  meal_datetime : Nat := 0
  created_at : Nat := 0
  updated_at : Nat := 0
  deriving DecidableEq

/-- Source `UserMeal.__init__` followed by `to_dict`: every field is stored as
given (the nutrients mapping verbatim), except `food_type`, which is
normalized, and the three timestamps, which are server-assigned. -/
def mealInit (now : Nat) (user_id : String) (nutrients : List (String × Rat))
    (image_url image_public_id meal_name notes food_type serving_size : Option String)
    (confidence_rate : Option Rat) (prediction_source ml_food_class : Option String)
    (user_edited : Bool) : MealDoc :=
  { user_id := user_id
    nutrients := nutrients
    image_url := image_url
    image_public_id := image_public_id
    meal_name := meal_name
    notes := notes
    food_type := validateFoodType food_type
    serving_size := serving_size
    confidence_rate := confidence_rate
    prediction_source := prediction_source
    ml_food_class := ml_food_class
    user_edited := user_edited
    meal_datetime := now
    created_at := now
    updated_at := now }

/-- A stored row: the id MongoDB assigned on insert plus the document. -/
structure MealRow where
  id : String
  doc : MealDoc
  deriving DecidableEq

/-- Source `UserMeal.create_meal` (success path): build the document and
`insert_one` it; the returned pair is the new collection state and the meal
dictionary handed back to the caller. -/
def create_meal (db : List MealRow) (newId : String) (now : Nat)
    (user_id : String) (nutrients : List (String × Rat))
    (image_url image_public_id meal_name notes food_type serving_size : Option String)
    (confidence_rate : Option Rat) (prediction_source ml_food_class : Option String)
    (user_edited : Bool) : List MealRow × MealDoc :=
  let meal_dict := mealInit now user_id nutrients image_url image_public_id meal_name
    notes food_type serving_size confidence_rate prediction_source ml_food_class user_edited
  (db ++ [⟨newId, meal_dict⟩], meal_dict)

/-- The optional fields of the JSON body accepted by `UserMeal.update_meal`
(a key that is absent or `null` is `none`). -/
structure UpdateDict where
  meal_name : Option String := none
  notes : Option String := none
  food_type : Option String := none
  nutrients : Option (List (String × Rat)) := none

/-- The `$set` document built by `UserMeal.update_meal`: `updated_at` and
`user_edited := true` are always included; each supplied field is merged
(strings stripped, `food_type` normalized, `nutrients` replaced wholesale). -/
def applyUpdate (now : Nat) (upd : UpdateDict) (doc : MealDoc) : MealDoc :=
  { doc with
    updated_at := now
    user_edited := true
    meal_name := match upd.meal_name with
      | some v => some (pyStrip v)
      | none => doc.meal_name
    notes := match upd.notes with
      | some v => some (pyStrip v)
      | none => doc.notes
    food_type := match upd.food_type with
      | some v =>
        let food_type_lower := pyStrip (pyLower v)
        if food_type_lower ∈ VALID_MEAL_TYPES then food_type_lower else "other"
      | none => doc.food_type
    nutrients := match upd.nutrients with
      | some n => n
      | none => doc.nutrients }

/-- Source `UserMeal.update_meal`: `update_one` filtered on both `_id` and
`user_id` applies the `$set` to the first matching row; the Bool is whether a
row matched (`matched_count > 0`; `false` is the `'Meal not found'` reply). -/
def update_meal (db : List MealRow) (meal_id user_id : String)
    (upd : UpdateDict) (now : Nat) : List MealRow × Bool :=
  match db with
  | [] => ([], false)
  | r :: rest =>
    if r.id = meal_id ∧ r.doc.user_id = user_id then
      ({ r with doc := applyUpdate now upd r.doc } :: rest, true)
    else
      let out := update_meal rest meal_id user_id upd now
      (r :: out.1, out.2)

/-! ## Local inference backend — `backend/services/ml_service.py`

The two neural networks and the image decoder are external state: the raw model
outputs are parameters of the embedding, and the post-processing that the
service performs on them is transcribed.  A model whose weights were not found
is `none`. -/

/-- Source `MLModelService.nutrient_names`, the fixed output order of the
regressor. -/
def nutrient_names : List String := ["Calories", "Protein (g)", "Carbs (g)", "Fat (g)"]

/-- The dictionary returned by `MLModelService.predict_nutrients`. -/
structure NutResult where
  success : Bool
  nutrients : List (String × Rat)
  error : Option String := none
  deriving DecidableEq

/-- Source `MLModelService.predict_nutrients`: with no loaded model the raised
`RuntimeError` is caught and returned as a failure dictionary; otherwise the
four raw regressor outputs are zipped with `nutrient_names`, each value being
`max(0, round(float(value), 2))`. -/
def predict_nutrients (modelOut : Option (Rat × Rat × Rat × Rat)) : NutResult :=
  match modelOut with
  | none => { success := false, nutrients := [], error := some "Nutrient model not initialized" }
  | some (a, b, c, d) =>
    { success := true
      nutrients := (nutrient_names.zip [a, b, c, d]).map fun p => (p.1, max 0 (pyRound 2 p.2)) }

/-- The dictionary returned by `MLModelService.classify_food`. -/
structure ClsResult where
  success : Bool
  is_food : Bool := false
  food_confidence : Rat := 0
  predictions : List (String × Rat) := []
  error : Option String := none
  deriving DecidableEq

/-- The contract numpy documents for `multi_probs.argsort()` over the
probability vector, for every sort kind: the returned index sequence is a
permutation of the index range that puts the values in ascending order.  The
default `kind='quicksort'` (introsort) is documented as *not* stable, so no
relative order among equal values is part of this contract. -/
def ArgsortSpec (p : List Rat) (idx : List Nat) : Prop :=
  idx.Perm (List.range p.length) ∧
    idx.Pairwise (fun i j => p.getD i 0 ≤ p.getD j 0)

/-- The comparison characterizing a *stable* ascending argsort of the
probability vector — ascending value, ties in ascending index order.  numpy's
default introsort guarantees this only on its small-array fallback (a plain
insertion sort, run on sub-arrays shorter than its threshold), not in
general. -/
def argKey (p : List Rat) (i j : Nat) : Prop :=
  p.getD i 0 < p.getD j 0 ∨ (p.getD i 0 = p.getD j 0 ∧ i ≤ j)

instance argKey.decidableRel (p : List Rat) : DecidableRel (argKey p) := fun i j => by
  unfold argKey; infer_instance

instance argKey.isTotal (p : List Rat) : IsTotal Nat (argKey p) := by
  constructor
  intro i j
  rcases lt_trichotomy (p.getD i 0) (p.getD j 0) with h | h | h
  · exact Or.inl (Or.inl h)
  · rcases Nat.le_total i j with hij | hij
    · exact Or.inl (Or.inr ⟨h, hij⟩)
    · exact Or.inr (Or.inr ⟨h.symm, hij⟩)
  · exact Or.inr (Or.inl h)

instance argKey.isTrans (p : List Rat) : IsTrans Nat (argKey p) := by
  constructor
  intro i j k hij hjk
  rcases hij with h₁ | ⟨e₁, l₁⟩
  · rcases hjk with h₂ | ⟨e₂, _⟩
    · exact Or.inl (h₁.trans h₂)
    · exact Or.inl (e₂ ▸ h₁)
  · rcases hjk with h₂ | ⟨e₂, l₂⟩
    · exact Or.inl (e₁ ▸ h₂)
    · exact Or.inr ⟨e₁.trans e₂, l₁.trans l₂⟩

/-- Model of `multi_probs.argsort()` on numpy's small-array code path only:
for arrays shorter than the introsort threshold the sort is a plain insertion
sort, which keeps equal elements in input order, so the result is the unique
index sequence ascending by (value, original index).  It is one conforming
`ArgsortSpec` outcome; for longer arrays the library does not promise this
order among ties. -/
def argsortSmall (p : List Rat) : List Nat :=
  List.insertionSort (argKey p) (List.range p.length)

/-- Source `[::-1][:topk]` applied to whatever index order `argsort` returned:
reverse it and keep the first `topk` indices. -/
def topk_idx (sortedIdx : List Nat) (topk : Nat) : List Nat :=
  sortedIdx.reverse.take topk

/-- Source `MLModelService.classify_food` (model present; the image decoded):
sigmoid output `bin_prob` thresholded at 0.5, and the softmax vector
`multi_probs` reduced to the top-`topk` (class name, confidence) pairs via
`argsort()[::-1][:topk]`, with names drawn from `["not_food"] + food_classes`
or a synthesized `unknown_<idx>` fallback.  The index order produced by the
external `multi_probs.argsort()` is the parameter `sortedIdx`, constrained by
`ArgsortSpec` in the theorems. -/
def classify_food (food_classes : List String) (bin_prob : Rat)
    (multi_probs : List Rat) (sortedIdx : List Nat) (topk : Nat) : ClsResult :=
  let class_names := "not_food" :: food_classes
  { success := true
    is_food := decide (1/2 < bin_prob)
    food_confidence := pyRound 4 bin_prob
    predictions := (topk_idx sortedIdx topk).map fun idx =>
      (if idx < class_names.length then class_names.getD idx "" else "unknown_" ++ toString idx,
        multi_probs.getD idx 0) }

/-! ## Generative vision backend — `backend/services/gemini_service.py`

The network transport and the JSON decoder are external: the decoder is a
parameter `decode`, returning `none` on a `json.JSONDecodeError`, and
otherwise the decoded object restricted to the fields the service reads
(a field that is absent is `none`).  A raised exception is `Except.error`. -/

/-- The decoded Gemini JSON object, restricted to the keys
`analyze_food_image` reads. -/
structure GeminiDict where
  success : Bool
  meal_name : Option String := none
  serving_size : Option String := none
  nutrients : Option (List (String × Rat)) := none
  confidence_percentage : Option Rat := none
  error : Option String := none
  message : Option String := none
  deriving DecidableEq

/-- Source `gemini_service.py` required nutrient keys. -/
def required_nutrients : List String :=
  ["Calories", "Carbs (g)", "Added Sugars (g)", "Fiber (g)", "Protein (g)", "Fat (g)"]

/-- Source loop `for nutrient in required_nutrients: if nutrient not in
result['nutrients']: result['nutrients'][nutrient] = 0.0` — a CPython dict
keeps existing entries in place and appends the missing keys in loop order. -/
def fillNutrients (ns : List (String × Rat)) : List (String × Rat) :=
  ns ++ (required_nutrients.filter fun k => ¬ ns.any fun p => p.1 = k).map fun k => (k, 0)

/-- Source `max(0, min(100, float(result['confidence_percentage'])))` with the
`50` default for an absent key. -/
def clampConfidence (c : Option Rat) : Rat :=
  match c with
  | none => 50
  | some v => max 0 (min 100 v)

/-- Source `GeminiService.analyze_food_image`, after the model replied: strip
markdown code fences (`response.text.strip()`, then drop a leading
` ```json `, then a leading ` ``` `, then a trailing ` ``` `, then strip
again). -/
def stripFences (s : String) : String :=
  let t0 := (pyStrip s).data
  let t1 := if List.isPrefixOf "```json".data t0 then t0.drop 7 else t0
  let t2 := if List.isPrefixOf "```".data t1 then t1.drop 3 else t1
  let t3 := if List.isPrefixOf "```".data.reverse t2.reverse then t2.take (t2.length - 3) else t2
  pyStrip ⟨t3⟩

/-- Source `GeminiService.analyze_food_image`, the branch on the decoded JSON:
`none` (a `json.JSONDecodeError`) returns the fixed soft-failure dictionary;
a `success=true` object lacking `meal_name` or `nutrients` raises
`ValueError("Invalid response structure from Gemini")`, which the outer
handler re-raises (`Except.error`); otherwise the missing required nutrient
keys are filled with 0.0 and the confidence is defaulted/clamped; a
`success=false` object only has its confidence defaulted to 0. -/
def analyze_parsed (p : Option GeminiDict) : Except String GeminiDict :=
  match p with
  | none =>
    .ok { success := false
          error := some "Cannot detect food in the image"
          message := some "Unable to analyze the image. Please try another image."
          confidence_percentage := some 0 }
  | some r =>
    if r.success then
      if r.meal_name = none ∨ r.nutrients = none then
        .error "Invalid response structure from Gemini"
      else
        .ok { r with
              nutrients := some (fillNutrients (r.nutrients.getD []))
              confidence_percentage := some (clampConfidence r.confidence_percentage) }
    else
      .ok { r with confidence_percentage := some (r.confidence_percentage.getD 0) }

/-- Source `GeminiService.analyze_food_image` on the raw model text: fences are
stripped before the decoder runs. -/
def analyze_food_image (decode : String → Option GeminiDict) (raw : String) :
    Except String GeminiDict :=
  analyze_parsed (decode (stripFences raw))

/-! ## Prediction orchestrator — `backend/services/prediction_service.py`

`predict_food` is a function of the two backend outcomes.  The Gemini side:
the global service can be absent or not ready, `analyze_food_image` can raise,
or it returns a dictionary.  The ML side: `get_ml_service()` can raise (its
lazy init failed); otherwise each of the two models is either absent (`none`)
or returns its result dictionary (`classify_food` and `predict_nutrients`
catch their own exceptions and never raise). -/

/-- Outcome of the Gemini side as observed by `predict_food`. -/
inductive GeminiEnv where
  | unavailable : GeminiEnv
  | raises (msg : String) : GeminiEnv
  | result (r : GeminiDict) : GeminiEnv

/-- Outcome of the ML side as observed by `predict_food`. -/
inductive MLEnv where
  | raises (msg : String) : MLEnv
  | available (cls : Option ClsResult) (nut : Option NutResult) : MLEnv

/-- An entry of the orchestrator's `errors` list. -/
structure ErrEntry where
  service : String
  error : String
  message : Option String := none
  deriving DecidableEq

/-- The `gemini_prediction` sub-dictionary built on a successful analysis. -/
structure GemPred where
  meal_name : Option String
  serving_size : String
  nutrients : List (String × Rat)
  confidence_percentage : Rat
  deriving DecidableEq

/-- The `ml_prediction` sub-dictionary (always built once the service is
reachable, with `None` for an unusable half). -/
structure MLPred where
  classification : Option ClsResult
  nutrients : Option (List (String × Rat))
  deriving DecidableEq

/-- The dictionary returned by `PredictionService.predict_food`. -/
structure PredictResult where
  success : Bool
  gemini_prediction : Option GemPred
  ml_prediction : Option MLPred
  gemini_available : Bool
  ml_available : Bool
  errors : List ErrEntry
  deriving DecidableEq

/-- The Gemini block of `predict_food`: the produced `gemini_prediction`,
`gemini_available` flag, and appended error entries, in order. -/
def geminiPart (g : GeminiEnv) : Option GemPred × Bool × List ErrEntry :=
  match g with
  | .unavailable => (none, false, [⟨"gemini", "Gemini service not available", none⟩])
  | .raises msg => (none, true, [⟨"gemini", msg, none⟩])
  | .result r =>
    if r.success then
      (some { meal_name := r.meal_name
              serving_size := r.serving_size.getD ""
              nutrients := r.nutrients.getD []
              confidence_percentage := r.confidence_percentage.getD 0 },
        true, [])
    else
      (none, true, [⟨"gemini", r.error.getD "Unknown error", some (r.message.getD "")⟩])

/-- The ML block of `predict_food`: the produced `ml_prediction`,
`ml_available` flag, and appended error entries, in order
(classification first, then nutrients). -/
def mlPart (m : MLEnv) : Option MLPred × Bool × List ErrEntry :=
  match m with
  | .raises msg => (none, false, [⟨"ml", msg, none⟩])
  | .available cls nut =>
    let mlp : MLPred :=
      { classification := match cls with
          | some c => if c.success then some c else none
          | none => none
        nutrients := match nut with
          | some n => if n.success then some n.nutrients else none
          | none => none }
    let clsErrs : List ErrEntry := match cls with
      | none => [⟨"ml_classification", "Model not available", none⟩]
      | some c => if c.success then [] else [⟨"ml_classification", c.error.getD "Classification failed", none⟩]
    let nutErrs : List ErrEntry := match nut with
      | none => [⟨"ml_nutrients", "Model not available", none⟩]
      | some n => if n.success then [] else [⟨"ml_nutrients", n.error.getD "Nutrient prediction failed", none⟩]
    (some mlp, true, clsErrs ++ nutErrs)

/-- Source `PredictionService.predict_food`, assembled from the two blocks;
`success` is the truthiness of
`gemini_prediction is not None or (ml_prediction and (classification is not
None or nutrients is not None))` (the Python expression evaluates to a falsy
`None` rather than `False` when `ml_prediction` is `None`; the flag is
modelled by its truthiness, which is what every caller tests). -/
def predict_food (g : GeminiEnv) (m : MLEnv) : PredictResult :=
  let gp := geminiPart g
  let mp := mlPart m
  { success := gp.1.isSome ||
      (match mp.1 with
        | some p => p.classification.isSome || p.nutrients.isSome
        | none => false)
    gemini_prediction := gp.1
    ml_prediction := mp.1
    gemini_available := gp.2.1
    ml_available := mp.2.1
    errors := gp.2.2 ++ mp.2.2 }

/-- Whether the Gemini backend produced a usable prediction
(`gemini_prediction is not None`). -/
def geminiUsable (g : GeminiEnv) : Bool :=
  match g with
  | .result r => r.success
  | _ => false

/-- Whether the ML backend produced a usable sub-result (a successful
classification or a successful nutrient estimate). -/
def mlUsable (m : MLEnv) : Bool :=
  match m with
  | .available cls nut =>
    (match cls with | some c => c.success | none => false) ||
      (match nut with | some n => n.success | none => false)
  | .raises _ => false

/-- Whether the ML classification sub-operation succeeded. -/
def mlClsOk (m : MLEnv) : Bool :=
  match m with
  | .available (some c) _ => c.success
  | _ => false

/-- Whether the ML nutrient sub-operation succeeded. -/
def mlNutOk (m : MLEnv) : Bool :=
  match m with
  | .available _ (some n) => n.success
  | _ => false

/-- Number of error entries a fully failed ML side contributes: one when the
service itself is unreachable, one per model — two — when it is reachable. -/
def mlFailCount (m : MLEnv) : Nat :=
  match m with
  | .raises _ => 1
  | .available _ _ => 2

/-! ## Upload validation — `backend/controllers/prediction_controller.py` and
`backend/controllers/nutrient_controller.py`

Both endpoints run the same validation prefix before anything else: image
present, filename non-empty, extension allowed, payload at most 10 MiB.  The
embedding returns `some rejection` for an early HTTP error and `none` when the
request falls through to the backend invocation. -/

/-- Source `allowed_extensions` (identical in both controllers). -/
def allowed_extensions : List String := ["png", "jpg", "jpeg", "gif", "bmp", "webp"]

/-- Source `image_file.filename.lower().split('.')[-1]`. -/
def extOf (filename : String) : String :=
  ⟨(splitDot (pyLower filename).data).getLastD []⟩

/-- Source `max_size = 10 * 1024 * 1024`. -/
def MAX_UPLOAD_SIZE : Nat := 10 * 1024 * 1024

/-- An early HTTP rejection: status code and error string. -/
structure HttpRejection where
  status : Nat
  error : String
  deriving DecidableEq

/-- Source `PredictionController.predict_food`, the validation prefix run
before `prediction_service.predict_food` (the backends) is invoked:
missing file and empty filename give 400, a disallowed extension gives 400,
and only then is the payload size checked, giving 413. -/
def predict_food_validate (hasImage : Bool) (filename : String) (size : Nat) :
    Option HttpRejection :=
  if ¬ hasImage then some ⟨400, "No image file provided"⟩
  else if filename = "" then some ⟨400, "Empty filename"⟩
  else if ¬ extOf filename ∈ allowed_extensions then
    some ⟨400, "Invalid file type. Supported: png, jpg, jpeg, gif, bmp, webp"⟩
  else if MAX_UPLOAD_SIZE < size then
    some ⟨413, "File too large. Maximum size is 10MB"⟩
  else none

/-- Source `NutrientController.predict_nutrients_only`, the analogous prefix
run before `ml_service.predict_nutrients` is invoked. -/
def predict_nutrients_only_validate (hasImage : Bool) (filename : String) (size : Nat) :
    Option HttpRejection :=
  if ¬ hasImage then some ⟨400, "No image file provided"⟩
  else if filename = "" then some ⟨400, "No image file selected"⟩
  else if ¬ extOf filename ∈ allowed_extensions then
    some ⟨400, "Invalid file type. Allowed types: png, jpg, jpeg, gif, bmp, webp"⟩
  else if MAX_UPLOAD_SIZE < size then
    some ⟨413, "File too large. Maximum size is 10MB"⟩
  else none

/-! ## Image staging and promotion — `backend/services/cloudinary_service.py`
and `PredictionController.save_predicted_meal`

The Cloudinary store is an association list from public id to an opaque
object.  `cloudinary.uploader.rename` is an external API; modelled from the
spec (§4.5: promotion "moves the object to permanent storage and deletes the
staged copy on success"): it moves the object when the source id exists and
the destination is free, and raises otherwise. -/

/-- The Cloudinary object store: public id to opaque content. -/
abbrev ImgStore := List (String × Nat)

/-- Whether a public id is present in the store. -/
def hasKey (s : ImgStore) (k : String) : Bool :=
  (List.any s fun p => p.1 = k)

/-- Modelled from the spec: the external `cloudinary.uploader.rename(from,
to)` — not part of this repository — moves the stored object from the source
id to the destination id, deleting the source; it fails (raises) when the
source does not exist or the destination is taken. -/
def cloudinaryRename (s : ImgStore) (fromId toId : String) : Option (ImgStore × Nat) :=
  match List.lookup fromId s with
  | none => none
  | some content =>
    if hasKey s toId then none
    else some ((List.filter (fun p => ¬ p.1 = fromId) s) ++ [(toId, content)], content)

/-- Model of the URL Cloudinary derives from a public id (`secure_url` of a
rename response, and `CloudinaryImage(public_id).build_url(secure=True)`,
which is computed from the id whether or not the object exists). -/
def urlOf (publicId : String) : String :=
  "https://res.cloudinary.test/" ++ publicId

/-- The dictionary returned by `CloudinaryService.move_image`. -/
structure MoveResult where
  success : Bool
  public_id : Option String := none
  url : Option String := none
  error : Option String := none
  deriving DecidableEq

/-- Source `CloudinaryService.move_image`: call `rename`; a raise is caught
and returned as a failure dictionary, leaving the store untouched. -/
def move_image (s : ImgStore) (from_public_id to_public_id : String) :
    ImgStore × MoveResult :=
  match cloudinaryRename s from_public_id to_public_id with
  | some (s2, _) =>
    (s2, { success := true, public_id := some to_public_id, url := some (urlOf to_public_id) })
  | none => (s, { success := false, error := some "rename failed" })

/-- Source `PredictionController.save_predicted_meal`, the image-promotion
step (lines 216–238): build a fresh permanent id from the owner and the
current timestamp, attempt `move_image`, and on failure fall back to the
staged id and its constructed URL.  Returns the store plus the
`(image_url, image_public_id)` pair used for the saved meal. -/
def promote_step (s : ImgStore) (user_id : String) (now : Nat)
    (temp_image_public_id : String) : ImgStore × Option String × Option String :=
  let new_public_id := "meals/" ++ user_id ++ "/" ++ toString now
  let out := move_image s temp_image_public_id new_public_id
  if out.2.success then
    (out.1, out.2.url, out.2.public_id)
  else
    (out.1, some (urlOf temp_image_public_id), some temp_image_public_id)

/-! ## Theorems -/

/-- Unfolding of `validateFoodType` on a present string. -/
theorem validateFoodType_some (s : String) :
    validateFoodType (some s) =
      if pyStrip (pyLower s) ∈ VALID_MEAL_TYPES then pyStrip (pyLower s) else "other" := rfl

/-- C4: food-type normalization at meal creation: a `null` input normalizes to
`"other"`; an input whose trimmed, case-folded form is an enum member stores
exactly that lowercase member; any other input normalizes to `"other"` (with a
logged warning, never an error); the stored value is always an enum member. -/
theorem c4_food_type_normalization :
    validateFoodType none = "other" ∧
    (∀ s m, m ∈ VALID_MEAL_TYPES → pyStrip (pyLower s) = m → validateFoodType (some s) = m) ∧
    (∀ s, pyStrip (pyLower s) ∉ VALID_MEAL_TYPES → validateFoodType (some s) = "other") ∧
    (∀ ft, validateFoodType ft ∈ VALID_MEAL_TYPES) := by
  refine ⟨rfl, ?_, ?_, ?_⟩
  · intro s m hm hs
    rw [validateFoodType_some, hs, if_pos hm]
  · intro s hs
    rw [validateFoodType_some, if_neg hs]
  · intro ft
    match ft with
    | none => decide
    | some s =>
      rw [validateFoodType_some]
      by_cases h : pyStrip (pyLower s) ∈ VALID_MEAL_TYPES
      · rw [if_pos h]; exact h
      · rw [if_neg h]; decide

/-- Witness for C4 at the spec's own examples. -/
theorem c4_witness :
    validateFoodType (some "BREAKFAST ") = "breakfast" ∧
    validateFoodType (some "brunch") = "other" :=
  ⟨c4_food_type_normalization.2.1 "BREAKFAST " "breakfast" (by decide) (by decide),
   c4_food_type_normalization.2.2.1 "brunch" (by decide)⟩

/-- C2 counterexample: a meal created with a negative nutrient value stores
that negative value unchanged — nothing in `UserMeal.__init__`/`create_meal`
clamps nutrient values at write time. -/
theorem c2_counterexample :
    (((create_meal [] "m1" 0 "u1" [("Calories", -5)] none none (some "Adobo") none
        (some "lunch") none none (some "manual") none false).2).nutrients
      = [("Calories", -5)]) ∧
    ¬ (∀ p ∈ ((create_meal [] "m1" 0 "u1" [("Calories", -5)] none none (some "Adobo") none
        (some "lunch") none none (some "manual") none false).2).nutrients, 0 ≤ p.2) := by
  exact ⟨rfl, by decide⟩

/-- C2 amended: `create_meal` stores the caller's nutrients mapping verbatim —
no clamping occurs — both in the inserted row and in the returned meal
dictionary, so a supplied negative value is stored negative. -/
theorem c2_amended_nutrients_stored_verbatim :
    ∀ db newId now uid nutrients iu ipid mn notes ft ss cr ps mfc ue,
      ((create_meal db newId now uid nutrients iu ipid mn notes ft ss cr ps mfc ue).2).nutrients
        = nutrients ∧
      ∃ r ∈ (create_meal db newId now uid nutrients iu ipid mn notes ft ss cr ps mfc ue).1,
        r.doc.nutrients = nutrients := by
  intro db newId now uid nutrients iu ipid mn notes ft ss cr ps mfc ue
  refine ⟨rfl,
    ⟨newId, mealInit now uid nutrients iu ipid mn notes ft ss cr ps mfc ue⟩, ?_, rfl⟩
  simp [create_meal]

/-- C10: every successful `update_meal` (a row matched both the meal id and
the owner id) leaves a stored row for that key with `user_edited = true` and
`updated_at` refreshed to the present call's timestamp, whatever subset of
fields the update supplied — including a notes-only update. -/
theorem c10_update_sets_user_edited :
    ∀ db mid uid upd now, (update_meal db mid uid upd now).2 = true →
      ∃ r ∈ (update_meal db mid uid upd now).1,
        r.id = mid ∧ r.doc.user_id = uid ∧ r.doc.user_edited = true ∧
          r.doc.updated_at = now := by
  intro db mid uid upd now
  induction db with
  | nil => intro h; simp [update_meal] at h
  | cons r rest ih =>
    intro h
    by_cases hm : r.id = mid ∧ r.doc.user_id = uid
    · refine ⟨{ r with doc := applyUpdate now upd r.doc }, ?_, hm.1, ?_, rfl, rfl⟩
      · simp [update_meal, hm]
      · simpa [applyUpdate] using hm.2
    · have h2 : (update_meal rest mid uid upd now).2 = true := by
        simpa [update_meal, hm] using h
      obtain ⟨x, hx, hprops⟩ := ih h2
      refine ⟨x, ?_, hprops⟩
      simp only [update_meal, if_neg hm, List.mem_cons]
      exact Or.inr hx

/-- Witness for C10: a notes-only update on a concrete one-row collection. -/
theorem c10_witness :
    (update_meal [⟨"m1", { user_id := "u1", nutrients := [("Calories", 100)] }⟩] "m1" "u1"
        { notes := some "  tasty  " } 7).2 = true ∧
    ∃ r ∈ (update_meal [⟨"m1", { user_id := "u1", nutrients := [("Calories", 100)] }⟩] "m1" "u1"
        { notes := some "  tasty  " } 7).1,
      r.id = "m1" ∧ r.doc.user_id = "u1" ∧ r.doc.user_edited = true ∧ r.doc.updated_at = 7 :=
  ⟨by decide, c10_update_sets_user_edited _ _ _ _ _ (by decide)⟩

/-- Each regressor output after `max(0, round(·, 2))` is non-negative and an
integer multiple of 1/100. -/
theorem max0_pyRound2 (v : Rat) :
    0 ≤ max 0 (pyRound 2 v) ∧ ∃ z : Int, max 0 (pyRound 2 v) = (z : Rat) / 100 := by
  refine ⟨le_max_left 0 _, ?_⟩
  rcases max_choice 0 (pyRound 2 v) with h | h
  · exact ⟨0, by rw [h]; norm_num⟩
  · refine ⟨roundHalfEven (v * (10 : Rat) ^ 2), ?_⟩
    rw [h]; simp only [pyRound]; norm_num

/-- C7: whenever `predict_nutrients` succeeds, the returned nutrient mapping
has exactly the four keys Calories, Protein (g), Carbs (g), Fat (g) in that
fixed order, and every value is non-negative and rounded to 2 decimal places
(an integer multiple of 1/100). -/
theorem c7_nutrients_nonneg_rounded :
    ∀ m, (predict_nutrients m).success = true →
      ((predict_nutrients m).nutrients.map Prod.fst = nutrient_names) ∧
      ∀ p ∈ (predict_nutrients m).nutrients,
        0 ≤ p.2 ∧ ∃ z : Int, p.2 = (z : Rat) / 100 := by
  intro m hm
  match m with
  | none => simp [predict_nutrients] at hm
  | some (a, b, c, d) =>
    refine ⟨rfl, ?_⟩
    intro p hp
    simp only [predict_nutrients, nutrient_names, List.zip_cons_cons, List.zip_nil_right,
      List.map_cons, List.map_nil, List.mem_cons, List.not_mem_nil, or_false] at hp
    rcases hp with h | h | h | h <;> (subst h; exact max0_pyRound2 _)

/-- Witness for C7 at a concrete regressor output with a negative and a
non-representable coordinate. -/
theorem c7_witness :
    (predict_nutrients (some (100, -3, 1/3, 2675/1000))).success = true ∧
    ((predict_nutrients (some (100, -3, 1/3, 2675/1000))).nutrients.map Prod.fst
      = nutrient_names) ∧
    ∀ p ∈ (predict_nutrients (some (100, -3, 1/3, 2675/1000))).nutrients,
      0 ≤ p.2 ∧ ∃ z : Int, p.2 = (z : Rat) / 100 :=
  ⟨rfl, c7_nutrients_nonneg_rounded _ rfl⟩

/-- C8 counterexample: an upload over 10 MiB whose filename has a disallowed
extension is rejected by the bad-file-type branch (status 400), not the size
branch (status 413): the extension check precedes the size check. -/
theorem c8_counterexample :
    predict_food_validate true "big.txt" (MAX_UPLOAD_SIZE + 1) =
      some ⟨400, "Invalid file type. Supported: png, jpg, jpeg, gif, bmp, webp"⟩ ∧
    (predict_food_validate true "big.txt" (MAX_UPLOAD_SIZE + 1)).map HttpRejection.status
      ≠ some 413 := by
  exact ⟨rfl, by decide⟩

/-- C8 amended: any upload whose payload exceeds 10 MiB is rejected before
either backend is invoked, and whenever its filename is non-empty with an
allowed extension the rejection is the size error, status 413 — distinct from
the 400 bad-file-type error — in both controllers. -/
theorem c8_amended_size_rejection :
    ∀ hasImage filename size,
      (MAX_UPLOAD_SIZE < size →
        (predict_food_validate hasImage filename size).isSome = true ∧
        (predict_nutrients_only_validate hasImage filename size).isSome = true) ∧
      (hasImage = true → filename ≠ "" → extOf filename ∈ allowed_extensions →
        MAX_UPLOAD_SIZE < size →
        predict_food_validate hasImage filename size =
          some ⟨413, "File too large. Maximum size is 10MB"⟩ ∧
        predict_nutrients_only_validate hasImage filename size =
          some ⟨413, "File too large. Maximum size is 10MB"⟩) := by
  intro hasImage filename size
  constructor
  · intro h
    constructor
    · unfold predict_food_validate
      split_ifs <;> simp_all
    · unfold predict_nutrients_only_validate
      split_ifs <;> simp_all
  · intro hi hf he hs
    subst hi
    constructor
    · simp [predict_food_validate, hf, he, hs]
    · simp [predict_nutrients_only_validate, hf, he, hs]

/-- Witness for C8 at a 10 MiB + 1 upload with an allowed extension. -/
theorem c8_witness :
    ((predict_food_validate true "big.png" (MAX_UPLOAD_SIZE + 1)).isSome = true ∧
      (predict_nutrients_only_validate true "big.png" (MAX_UPLOAD_SIZE + 1)).isSome = true) ∧
    predict_food_validate true "big.png" (MAX_UPLOAD_SIZE + 1) =
      some ⟨413, "File too large. Maximum size is 10MB"⟩ ∧
    predict_nutrients_only_validate true "big.png" (MAX_UPLOAD_SIZE + 1) =
      some ⟨413, "File too large. Maximum size is 10MB"⟩ :=
  ⟨(c8_amended_size_rejection true "big.png" (MAX_UPLOAD_SIZE + 1)).1 (by decide),
   (c8_amended_size_rejection true "big.png" (MAX_UPLOAD_SIZE + 1)).2 rfl (by decide)
     (by decide) (by decide)⟩

/-- The orchestrator's success flag is the truthiness of "some backend
produced a usable sub-result". -/
theorem predict_food_success (g : GeminiEnv) (m : MLEnv) :
    (predict_food g m).success = (geminiUsable g || mlUsable m) := by
  have hg : (geminiPart g).1.isSome = geminiUsable g := by
    cases g with
    | unavailable => rfl
    | raises msg => rfl
    | result r => cases hr : r.success <;> simp [geminiPart, geminiUsable, hr]
  have hm : (match (mlPart m).1 with
      | some p => p.classification.isSome || p.nutrients.isSome
      | none => false) = mlUsable m := by
    cases m with
    | raises msg => rfl
    | available cls nut =>
      cases cls with
      | none =>
        cases nut with
        | none => rfl
        | some n => cases hn : n.success <;> simp [mlPart, mlUsable, hn]
      | some c =>
        cases nut with
        | none => cases hc : c.success <;> simp [mlPart, mlUsable, hc]
        | some n =>
          cases hc : c.success <;> cases hn : n.success <;> simp [mlPart, mlUsable, hc, hn]
  show ((geminiPart g).1.isSome ||
      match (mlPart m).1 with
      | some p => p.classification.isSome || p.nutrients.isSome
      | none => false) = (geminiUsable g || mlUsable m)
  rw [hg, hm]

/-- The orchestrator's error list is the Gemini block's entries followed by
the ML block's entries. -/
theorem predict_food_errors (g : GeminiEnv) (m : MLEnv) :
    (predict_food g m).errors = (geminiPart g).2.2 ++ (mlPart m).2.2 := rfl

/-- A usable Gemini outcome contributes no error entry. -/
theorem geminiPart_ok_errs (g : GeminiEnv) (h : geminiUsable g = true) :
    (geminiPart g).2.2 = [] := by
  cases g with
  | unavailable => simp [geminiUsable] at h
  | raises msg => simp [geminiUsable] at h
  | result r =>
    have hr : r.success = true := h
    simp [geminiPart, hr]

/-- A failed Gemini outcome contributes exactly one error entry, and it names
the gemini service. -/
theorem geminiPart_fail_errs (g : GeminiEnv) (h : geminiUsable g = false) :
    ∃ e, (geminiPart g).2.2 = [e] ∧ e.service = "gemini" := by
  cases g with
  | unavailable => exact ⟨_, rfl, rfl⟩
  | raises msg => exact ⟨_, rfl, rfl⟩
  | result r =>
    have hr : r.success = false := h
    exact ⟨⟨"gemini", r.error.getD "Unknown error", some (r.message.getD "")⟩,
      by simp [geminiPart, hr], rfl⟩

/-- Every error entry of the ML block names an ML service. -/
theorem mlPart_errs_services (m : MLEnv) :
    ∀ e ∈ (mlPart m).2.2,
      e.service = "ml" ∨ e.service = "ml_classification" ∨ e.service = "ml_nutrients" := by
  cases m with
  | raises msg => intro e he; simp [mlPart] at he; simp [he]
  | available cls nut =>
    intro e he
    cases cls with
    | none =>
      cases nut with
      | none => simp [mlPart] at he; rcases he with h | h <;> simp [h]
      | some n =>
        cases hn : n.success <;> simp [mlPart, hn] at he <;>
          first
          | (rcases he with h | h <;> simp [h])
          | simp [he]
    | some c =>
      cases nut with
      | none =>
        cases hc : c.success <;> simp [mlPart, hc] at he <;>
          first
          | (rcases he with h | h <;> simp [h])
          | simp [he]
      | some n =>
        cases hc : c.success <;> cases hn : n.success <;> simp [mlPart, hc, hn] at he <;>
          first
          | (rcases he with h | h <;> simp [h])
          | simp [he]

/-- When the ML service is reachable, its error entries name the two model
sub-operations only, never the bare service. -/
theorem mlPart_avail_errs_services (cls : Option ClsResult) (nut : Option NutResult) :
    ∀ e ∈ (mlPart (.available cls nut)).2.2,
      e.service = "ml_classification" ∨ e.service = "ml_nutrients" := by
  intro e he
  cases cls with
  | none =>
    cases nut with
    | none => simp [mlPart] at he; rcases he with h | h <;> simp [h]
    | some n =>
      cases hn : n.success <;> simp [mlPart, hn] at he <;>
        first
        | (rcases he with h | h <;> simp [h])
        | simp [he]
  | some c =>
    cases nut with
    | none =>
      cases hc : c.success <;> simp [mlPart, hc] at he <;>
        first
        | (rcases he with h | h <;> simp [h])
        | simp [he]
    | some n =>
      cases hc : c.success <;> cases hn : n.success <;> simp [mlPart, hc, hn] at he <;>
        first
        | (rcases he with h | h <;> simp [h])
        | simp [he]

/-- When the ML backend produced no usable sub-result its block contributes
one error entry if the service itself was unreachable, and one entry per
model — two — otherwise. -/
theorem mlPart_fail_errs_length (m : MLEnv) (h : mlUsable m = false) :
    (mlPart m).2.2.length = mlFailCount m := by
  cases m with
  | raises msg => rfl
  | available cls nut =>
    have h2 := h
    simp only [mlUsable, Bool.or_eq_false_iff] at h2
    cases cls with
    | none =>
      cases nut with
      | none => rfl
      | some n =>
        have hn : n.success = false := h2.2
        simp [mlPart, mlFailCount, hn]
    | some c =>
      cases nut with
      | none =>
        have hc : c.success = false := h2.1
        simp [mlPart, mlFailCount, hc]
      | some n =>
        have hc : c.success = false := h2.1
        have hn : n.success = false := h2.2
        simp [mlPart, mlFailCount, hc, hn]

/-- A failed ML backend contributes at least one entry naming an ML service. -/
theorem mlPart_fail_err_exists (m : MLEnv) (h : mlUsable m = false) :
    ∃ e ∈ (mlPart m).2.2,
      e.service = "ml" ∨ e.service = "ml_classification" ∨ e.service = "ml_nutrients" := by
  have hl := mlPart_fail_errs_length m h
  cases m with
  | raises msg => exact ⟨⟨"ml", msg, none⟩, by simp [mlPart], by simp⟩
  | available cls nut =>
    have : (mlPart (.available cls nut)).2.2 ≠ [] := by
      intro hnil
      rw [hnil] at hl
      simp [mlFailCount] at hl
    obtain ⟨e, he⟩ := List.exists_mem_of_ne_nil _ this
    exact ⟨e, he, mlPart_errs_services _ e he⟩

/-- When both ML sub-operations succeed the ML block contributes no error. -/
theorem mlPart_ok_errs (cls : Option ClsResult) (nut : Option NutResult)
    (hc : mlClsOk (.available cls nut) = true) (hn : mlNutOk (.available cls nut) = true) :
    (mlPart (.available cls nut)).2.2 = [] := by
  cases cls with
  | none => simp [mlClsOk] at hc
  | some c =>
    cases nut with
    | none => simp [mlNutOk] at hn
    | some n =>
      have hc2 : c.success = true := hc
      have hn2 : n.success = true := hn
      simp [mlPart, hc2, hn2]

/-- C1: the orchestrator's success flag is true exactly when at least one
backend produced a usable sub-result (a generative prediction, a
classification, or a nutrient estimate); when both backends fail the flag is
false and the error list carries an entry for the gemini failure and an entry
for the ML failure. -/
theorem c1_success_iff_usable :
    ∀ g m,
      ((predict_food g m).success = true ↔
        (geminiUsable g = true ∨ mlUsable m = true)) ∧
      (geminiUsable g = false → mlUsable m = false →
        (predict_food g m).success = false ∧
        (∃ e ∈ (predict_food g m).errors, e.service = "gemini") ∧
        (∃ e ∈ (predict_food g m).errors,
          e.service = "ml" ∨ e.service = "ml_classification" ∨ e.service = "ml_nutrients")) := by
  intro g m
  constructor
  · rw [predict_food_success]
    simp [Bool.or_eq_true]
  · intro hg hm
    refine ⟨by rw [predict_food_success, hg, hm]; rfl, ?_, ?_⟩
    · obtain ⟨e, he, hs⟩ := geminiPart_fail_errs g hg
      refine ⟨e, ?_, hs⟩
      rw [predict_food_errors, he]
      exact List.mem_append_left _ (by simp)
    · obtain ⟨e, he, hs⟩ := mlPart_fail_err_exists m hm
      refine ⟨e, ?_, hs⟩
      rw [predict_food_errors]
      exact List.mem_append_right _ he

/-- Witness for C1: both backends down (gemini not configured, ML lazy init
raised). -/
theorem c1_witness :
    ((predict_food .unavailable (.raises "ML Service not available")).success = true ↔
      (geminiUsable .unavailable = true ∨ mlUsable (.raises "ML Service not available") = true)) ∧
    ((predict_food .unavailable (.raises "ML Service not available")).success = false ∧
      (∃ e ∈ (predict_food .unavailable (.raises "ML Service not available")).errors,
        e.service = "gemini") ∧
      (∃ e ∈ (predict_food .unavailable (.raises "ML Service not available")).errors,
        e.service = "ml" ∨ e.service = "ml_classification" ∨ e.service = "ml_nutrients")) :=
  ⟨(c1_success_iff_usable .unavailable (.raises "ML Service not available")).1,
   (c1_success_iff_usable .unavailable (.raises "ML Service not available")).2
     (by decide) (by decide)⟩

/-- C6 counterexample: the Gemini backend succeeds and the ML backend fails
(service reachable, neither model loaded) — exactly one backend failed — yet
`errors` receives two entries, one per missing model, not exactly one. -/
theorem c6_counterexample :
    geminiUsable (.result { success := true, meal_name := some "Pizza" }) = true ∧
    mlUsable (.available none none) = false ∧
    (predict_food (.result { success := true, meal_name := some "Pizza" })
        (.available none none)).success = true ∧
    (predict_food (.result { success := true, meal_name := some "Pizza" })
        (.available none none)).errors =
      [⟨"ml_classification", "Model not available", none⟩,
        ⟨"ml_nutrients", "Model not available", none⟩] ∧
    (predict_food (.result { success := true, meal_name := some "Pizza" })
        (.available none none)).errors.length ≠ 1 := by
  decide

/-- C6 amended: when exactly one backend fails and the other succeeds,
`predict_food` returns `success = true`, every error entry names the failed
backend, and there is one entry per failed sub-operation: exactly one when the
failed backend is gemini, or when the ML service itself is unreachable; two
(one per model) when the ML service is reachable but neither model produced a
result; and in the gemini-failed direction the error list starts with the
single gemini entry, followed only by entries for whichever ML sub-operations
also failed — exactly one entry in total when both ML sub-operations
succeeded. -/
theorem c6_amended_one_entry_per_failed_subop :
    ∀ g m,
      (geminiUsable g = true → mlUsable m = false →
        (predict_food g m).success = true ∧
        (∀ e ∈ (predict_food g m).errors,
          e.service = "ml" ∨ e.service = "ml_classification" ∨ e.service = "ml_nutrients") ∧
        (predict_food g m).errors.length = mlFailCount m) ∧
      (geminiUsable g = false → mlUsable m = true →
        (predict_food g m).success = true ∧
        (∃ e rest, (predict_food g m).errors = e :: rest ∧ e.service = "gemini" ∧
          ∀ x ∈ rest, x.service = "ml_classification" ∨ x.service = "ml_nutrients") ∧
        (mlClsOk m = true → mlNutOk m = true → (predict_food g m).errors.length = 1)) := by
  intro g m
  constructor
  · intro hg hm
    have herr : (predict_food g m).errors = (mlPart m).2.2 := by
      rw [predict_food_errors, geminiPart_ok_errs g hg, List.nil_append]
    refine ⟨?_, ?_, ?_⟩
    · rw [predict_food_success, hg, Bool.true_or]
    · intro e he
      rw [herr] at he
      exact mlPart_errs_services m e he
    · rw [herr]
      exact mlPart_fail_errs_length m hm
  · intro hg hm
    obtain ⟨e, hge, hgs⟩ := geminiPart_fail_errs g hg
    have herr : (predict_food g m).errors = e :: (mlPart m).2.2 := by
      rw [predict_food_errors, hge, List.singleton_append]
    refine ⟨?_, ⟨e, (mlPart m).2.2, herr, hgs, ?_⟩, ?_⟩
    · rw [predict_food_success, hm, Bool.or_true]
    · intro x hx
      cases m with
      | raises msg => simp [mlUsable] at hm
      | available cls nut => exact mlPart_avail_errs_services cls nut x hx
    · intro hc hn
      cases m with
      | raises msg => simp [mlUsable] at hm
      | available cls nut =>
        rw [herr, mlPart_ok_errs cls nut hc hn]
        rfl

/-- Witness for C6 at concrete environments in both directions: gemini up with
the ML models absent, and gemini unavailable with both ML models succeeding. -/
theorem c6_witness :
    (PredictResult.success (predict_food (.result { success := true, meal_name := some "Pizza" })
        (.available none none)) = true ∧
      (∀ e ∈ PredictResult.errors (predict_food
          (.result { success := true, meal_name := some "Pizza" }) (.available none none)),
        e.service = "ml" ∨ e.service = "ml_classification" ∨ e.service = "ml_nutrients") ∧
      List.length (PredictResult.errors (predict_food
        (.result { success := true, meal_name := some "Pizza" }) (.available none none))) =
          mlFailCount (.available none none)) ∧
    (PredictResult.success (predict_food .unavailable
        (.available (some { success := true }) (some { success := true, nutrients := [] })))
        = true ∧
      (∃ e rest,
        PredictResult.errors (predict_food .unavailable
          (.available (some { success := true }) (some { success := true, nutrients := [] })))
            = e :: rest ∧ e.service = "gemini" ∧
          ∀ x ∈ rest, x.service = "ml_classification" ∨ x.service = "ml_nutrients") ∧
      List.length (PredictResult.errors (predict_food .unavailable
        (.available (some { success := true }) (some { success := true, nutrients := [] }))))
          = 1) :=
  ⟨(c6_amended_one_entry_per_failed_subop
      (.result { success := true, meal_name := some "Pizza" }) (.available none none)).1
      (by decide) (by decide),
   (fun h => ⟨h.1, h.2.1, h.2.2 (by decide) (by decide)⟩)
     ((c6_amended_one_entry_per_failed_subop .unavailable
        (.available (some { success := true }) (some { success := true, nutrients := [] }))).2
        (by decide) (by decide))⟩

/-- Every required nutrient key is present after the fill pass. -/
theorem fillNutrients_key_present (ns : List (String × Rat)) (k : String)
    (hk : k ∈ required_nutrients) : ∃ v, (k, v) ∈ fillNutrients ns := by
  by_cases h : ns.any (fun p => p.1 = k)
  · rw [List.any_eq_true] at h
    obtain ⟨p, hp, hpk⟩ := h
    refine ⟨p.2, List.mem_append_left _ ?_⟩
    have : (k, p.2) = p := by
      obtain ⟨p1, p2⟩ := p
      simp only [decide_eq_true_eq] at hpk
      simp [hpk]
    rw [this]
    exact hp
  · refine ⟨0, List.mem_append_right _ ?_⟩
    refine List.mem_map_of_mem _ ?_
    rw [List.mem_filter]
    refine ⟨hk, ?_⟩
    simp only [decide_eq_true_eq]
    exact h

/-- A required nutrient key absent from the parsed mapping is filled with 0. -/
theorem fillNutrients_missing_zero (ns : List (String × Rat)) (k : String)
    (hk : k ∈ required_nutrients) (h : ∀ v, (k, v) ∉ ns) :
    (k, (0 : Rat)) ∈ fillNutrients ns := by
  have hany : ns.any (fun p => p.1 = k) = false := by
    rw [← Bool.not_eq_true, List.any_eq_true]
    rintro ⟨p, hp, hpk⟩
    simp only [decide_eq_true_eq] at hpk
    apply h p.2
    have hkp : (k, p.2) = p := by
      obtain ⟨p1, p2⟩ := p
      simp only at hpk
      simp [hpk]
    rw [hkp]
    exact hp
  refine List.mem_append_right _ (List.mem_map_of_mem _ ?_)
  rw [List.mem_filter]
  exact ⟨hk, by simp [hany]⟩

/-- The sanitized confidence is in [0, 100] and defaults to 50 when absent. -/
theorem clampConfidence_bounds (c : Option Rat) :
    0 ≤ clampConfidence c ∧ clampConfidence c ≤ 100 ∧
      (c = none → clampConfidence c = 50) := by
  cases c with
  | none => exact ⟨by norm_num [clampConfidence], by norm_num [clampConfidence], fun _ => rfl⟩
  | some v =>
    refine ⟨le_max_left 0 _, max_le (by norm_num) (min_le_left _ _), ?_⟩
    intro h
    cases h

/-- C5 counterexample: a successful parse of a `success=true` response that
contains no nutrients object (all 6 required keys missing) does not yield a
result with the keys filled with 0.0 — `analyze_food_image` raises
`ValueError("Invalid response structure from Gemini")`, which the outer
handler re-raises. -/
theorem c5_counterexample :
    analyze_parsed (some { success := true, meal_name := some "Pizza" }) =
      .error "Invalid response structure from Gemini" ∧
    (analyze_parsed (some { success := true, meal_name := some "Pizza" })).toOption = none :=
  ⟨rfl, rfl⟩

/-- C5 amended: fences are stripped before decoding (by construction of
`analyze_food_image`); a JSON-decode failure yields the fixed success=false
dictionary with a reason rather than raising; and on every successful parse of
a success=true response that carries a meal name and a nutrients object, each
of the 6 required nutrient keys missing from it is filled with 0.0 and the
confidence is clamped into [0,100], defaulting to 50 when absent. -/
theorem c5_defensive_parsing :
    ∀ decode raw,
      (decode (stripFences raw) = none →
        analyze_food_image decode raw =
          .ok { success := false
                error := some "Cannot detect food in the image"
                message := some "Unable to analyze the image. Please try another image."
                confidence_percentage := some 0 }) ∧
      (∀ r ns, decode (stripFences raw) = some r → r.success = true →
        r.meal_name ≠ none → r.nutrients = some ns →
        ∃ out, analyze_food_image decode raw = .ok out ∧ out.success = true ∧
          (∀ k ∈ required_nutrients, ∃ v, (k, v) ∈ out.nutrients.getD []) ∧
          (∀ k ∈ required_nutrients, (∀ v, (k, v) ∉ ns) →
            (k, (0 : Rat)) ∈ out.nutrients.getD []) ∧
          ∃ c, out.confidence_percentage = some c ∧ 0 ≤ c ∧ c ≤ 100 ∧
            (r.confidence_percentage = none → c = 50)) := by
  intro decode raw
  constructor
  · intro h
    simp [analyze_food_image, h, analyze_parsed]
  · intro r ns hdec hs hmn hns
    refine ⟨{ r with nutrients := some (fillNutrients ns), confidence_percentage := some (clampConfidence r.confidence_percentage) },
      ?_, hs, ?_, ?_, ?_⟩
    · simp only [analyze_food_image, hdec, analyze_parsed, hs, if_true]
      rw [if_neg (by simp [hmn, hns]), hns]
      rfl
    · intro k hk
      exact fillNutrients_key_present ns k hk
    · intro k hk habs
      exact fillNutrients_missing_zero ns k hk habs
    · exact ⟨clampConfidence r.confidence_percentage, rfl,
        (clampConfidence_bounds _).1, (clampConfidence_bounds _).2.1,
        fun h => by rw [h]; rfl⟩

/-- Witness for C5: an undecodable reply, and a decodable success=true reply
missing five of the six nutrient keys and the confidence. -/
theorem c5_witness :
    (analyze_food_image (fun _ => none) "not json" =
      .ok { success := false
            error := some "Cannot detect food in the image"
            message := some "Unable to analyze the image. Please try another image."
            confidence_percentage := some 0 }) ∧
    (∃ out, analyze_food_image
        (fun _ => some { success := true, meal_name := some "Taco", nutrients := some [("Calories", 250)] })
        "raw" = .ok out ∧ out.success = true ∧
      (∀ k ∈ required_nutrients, ∃ v, (k, v) ∈ out.nutrients.getD []) ∧
      (∀ k ∈ required_nutrients, (∀ v, (k, v) ∉ ([("Calories", (250 : Rat))])) →
        (k, (0 : Rat)) ∈ out.nutrients.getD []) ∧
      ∃ c, out.confidence_percentage = some c ∧ 0 ≤ c ∧ c ≤ 100 ∧
        ((none : Option Rat) = none → c = 50)) :=
  ⟨(c5_defensive_parsing (fun _ => none) "not json").1 rfl,
   (c5_defensive_parsing
      (fun _ => some { success := true, meal_name := some "Taco", nutrients := some [("Calories", 250)] })
      "raw").2 _ _ rfl rfl (by simp) rfl⟩

/-- An id with no store entry has no `lookup` hit. -/
theorem lookup_eq_none_of_hasKey_false (s : ImgStore) (k : String)
    (h : hasKey s k = false) : List.lookup k s = none := by
  induction s with
  | nil => rfl
  | cons p rest ih =>
    simp only [hasKey, List.any_cons, Bool.or_eq_false_iff] at h
    have hne : (k == p.1) = false := by
      rcases h with ⟨h1, _⟩
      simp only [decide_eq_false_iff_not] at h1
      exact beq_eq_false_iff_ne.mpr fun he => h1 he.symm
    simp only [List.lookup, hne]
    exact ih (by simpa [hasKey] using h.2)

/-- An id with a store entry has a `lookup` hit. -/
theorem lookup_isSome_of_hasKey (s : ImgStore) (k : String)
    (h : hasKey s k = true) : ∃ v, List.lookup k s = some v := by
  induction s with
  | nil => simp [hasKey] at h
  | cons p rest ih =>
    simp only [hasKey, List.any_cons, Bool.or_eq_true] at h
    by_cases hk : (k == p.1) = true
    · exact ⟨p.2, by simp [List.lookup, hk]⟩
    · have hrest : hasKey rest k = true := by
        rcases h with h1 | h2
        · exfalso
          apply hk
          simp only [decide_eq_true_eq] at h1
          simp [h1]
        · simpa [hasKey] using h2
      obtain ⟨v, hv⟩ := ih hrest
      exact ⟨v, by simp [List.lookup, hk, hv]⟩

/-- C3 counterexample: starting from a store holding only the staged object
`temp1`, the first promotion succeeds and returns the permanent id
`meals/u/1`; promoting the same staging id a second time does not return that
permanent reference — the rename fails (the staged copy was consumed) and the
fallback returns the stale staged id — although the store is unchanged. -/
theorem c3_counterexample :
    (promote_step [("temp1", 0)] "u" 1 "temp1").2.2 = some "meals/u/1" ∧
    (promote_step (promote_step [("temp1", 0)] "u" 1 "temp1").1 "u" 2 "temp1").2.2 =
      some "temp1" ∧
    (some "temp1" : Option String) ≠ some "meals/u/1" ∧
    (promote_step (promote_step [("temp1", 0)] "u" 1 "temp1").1 "u" 2 "temp1").1 =
      (promote_step [("temp1", 0)] "u" 1 "temp1").1 := by
  decide

/-- C3 amended: promotion is not idempotent.  Once the staging id is no longer
in the store (as after a successful promotion, which consumes it), promoting it
again leaves the store untouched — no duplicate object, no side effect — but
returns the stale staged reference (the staged id and its constructed URL),
not the previously returned permanent reference; a first promotion from a
state that still stages the id and has the permanent id free does succeed,
returning the fresh permanent id and deleting the staged copy. -/
theorem c3_promotion_not_idempotent :
    (∀ (s : ImgStore) (user : String) (now : Nat) (temp : String),
      hasKey s temp = false →
      promote_step s user now temp = (s, some (urlOf temp), some temp)) ∧
    (∀ (s : ImgStore) (user : String) (now : Nat) (temp : String),
      hasKey s temp = true →
      hasKey s ("meals/" ++ user ++ "/" ++ toString now) = false →
      (promote_step s user now temp).2.2 =
        some ("meals/" ++ user ++ "/" ++ toString now) ∧
      hasKey (promote_step s user now temp).1 temp = false) := by
  constructor
  · intro s user now temp h
    have hl := lookup_eq_none_of_hasKey_false s temp h
    simp [promote_step, move_image, cloudinaryRename, hl]
  · intro s user now temp h h2
    obtain ⟨c, hc⟩ := lookup_isSome_of_hasKey s temp h
    have hstep : promote_step s user now temp =
        ((List.filter (fun p => ¬ p.1 = temp) s ++
            [("meals/" ++ user ++ "/" ++ toString now, c)],
          some (urlOf ("meals/" ++ user ++ "/" ++ toString now)),
          some ("meals/" ++ user ++ "/" ++ toString now))) := by
      simp [promote_step, move_image, cloudinaryRename, hc, h2]
    refine ⟨by rw [hstep], ?_⟩
    rw [hstep]
    have hne : ("meals/" ++ user ++ "/" ++ toString now) ≠ temp := by
      intro he
      rw [he, h] at h2
      cases h2
    rw [← Bool.not_eq_true]
    simp only [hasKey, List.any_eq_true, not_exists, not_and]
    intro p hp
    rcases List.mem_append.mp hp with hmem | hmem
    · have := (List.mem_filter.mp hmem).2
      simpa using this
    · simp only [List.mem_singleton] at hmem
      subst hmem
      simpa using hne

/-- Witness for C3 at the concrete two-step scenario of the counterexample. -/
theorem c3_witness :
    promote_step [("meals/u/1", 0)] "u" 2 "temp1" =
      ([("meals/u/1", 0)], some (urlOf "temp1"), some "temp1") ∧
    ((promote_step [("temp1", 0)] "u" 1 "temp1").2.2 = some "meals/u/1" ∧
      hasKey (promote_step [("temp1", 0)] "u" 1 "temp1").1 "temp1" = false) :=
  ⟨c3_promotion_not_idempotent.1 [("meals/u/1", 0)] "u" 2 "temp1" (by decide),
   (fun h => ⟨h.1, h.2⟩)
     (c3_promotion_not_idempotent.2 [("temp1", 0)] "u" 1 "temp1" (by decide) (by decide))⟩

/-- The small-array insertion-sort outcome satisfies numpy's documented
argsort contract. -/
theorem argsortSmall_spec (p : List Rat) : ArgsortSpec p (argsortSmall p) :=
  ⟨List.perm_insertionSort (argKey p) (List.range p.length),
   List.Pairwise.imp
     (fun {i j} h => by
       rcases h with h | ⟨he, _⟩
       · exact le_of_lt h
       · exact le_of_eq he)
     (List.sorted_insertionSort (argKey p) (List.range p.length))⟩

/-- C9 counterexample: at a two-element tied probability vector the code's
behaviour is determined — numpy's introsort runs a plain, stable insertion
sort on arrays this short — and `argsort()[::-1][:topk]` lists the tied class
with the *larger* index first, `[1, 0]`, so "ties broken by ascending class
index" fails; the emitted index order is a conforming argsort outcome. -/
theorem c9_counterexample :
    ArgsortSpec [1, 1] (argsortSmall [1, 1]) ∧
    topk_idx (argsortSmall [1, 1]) 2 = [1, 0] ∧
    (classify_food ["pizza"] 1 [1, 1] (argsortSmall [1, 1]) 2).predictions =
      [("pizza", 1), ("not_food", 1)] ∧
    ([1, 1] : List Rat).getD 1 0 = ([1, 1] : List Rat).getD 0 0 ∧
    ¬ List.Pairwise
      (fun i j => ([1, 1] : List Rat).getD j 0 < ([1, 1] : List Rat).getD i 0 ∨
        (([1, 1] : List Rat).getD i 0 = ([1, 1] : List Rat).getD j 0 ∧ i < j))
      (topk_idx (argsortSmall [1, 1]) 2) :=
  ⟨argsortSmall_spec [1, 1], by decide, by decide, by decide, by decide⟩

/-- C9 amended: for every index order the external `argsort` may return —
numpy promises a permutation that puts the values in ascending order but,
with the default sort kind, no particular order among equal values —
`classify_food` emits the top-`topk` entries sorted by non-increasing
probability: the index list has the right length, stays in range, carries
non-increasing probabilities, and no excluded index has a larger probability
than an included one.  No tie direction is asserted; the counterexample shows
ties are not broken by ascending class index. -/
theorem c9_topk_descending_unspecified_ties :
    ∀ (food_classes : List String) (bin_prob : Rat) (p : List Rat)
      (sortedIdx : List Nat) (k : Nat), ArgsortSpec p sortedIdx →
      (classify_food food_classes bin_prob p sortedIdx k).predictions =
        (topk_idx sortedIdx k).map (fun idx =>
          (if idx < ("not_food" :: food_classes).length
            then ("not_food" :: food_classes).getD idx ""
            else "unknown_" ++ toString idx, p.getD idx 0)) ∧
      (topk_idx sortedIdx k).length = min k p.length ∧
      (∀ i ∈ topk_idx sortedIdx k, i < p.length) ∧
      List.Pairwise (fun i j => p.getD j 0 ≤ p.getD i 0) (topk_idx sortedIdx k) ∧
      (∀ i ∈ topk_idx sortedIdx k, ∀ j, j < p.length → j ∉ topk_idx sortedIdx k →
        p.getD j 0 ≤ p.getD i 0) := by
  intro food_classes bin_prob p sortedIdx k hspec
  obtain ⟨hperm, hpair⟩ := hspec
  have hrperm : sortedIdx.reverse.Perm (List.range p.length) :=
    (sortedIdx.reverse_perm).trans hperm
  have hrpair : List.Pairwise (fun i j => p.getD j 0 ≤ p.getD i 0) sortedIdx.reverse :=
    List.pairwise_reverse.mpr hpair
  refine ⟨rfl, ?_, ?_, ?_, ?_⟩
  · rw [topk_idx, List.length_take, List.length_reverse, hperm.length_eq, List.length_range]
  · intro i hi
    have hir : i ∈ sortedIdx.reverse := List.mem_of_mem_take hi
    exact List.mem_range.mp (hrperm.mem_iff.mp hir)
  · exact hrpair.sublist (List.take_sublist k _)
  · intro i hi j hj hnot
    have hjr : j ∈ sortedIdx.reverse := hrperm.mem_iff.mpr (List.mem_range.mpr hj)
    have hpair2 : List.Pairwise (fun i j => p.getD j 0 ≤ p.getD i 0)
        (sortedIdx.reverse.take k ++ sortedIdx.reverse.drop k) := by
      rw [List.take_append_drop]; exact hrpair
    have hcross := (List.pairwise_append.mp hpair2).2.2
    have hjsplit : j ∈ sortedIdx.reverse.take k ++ sortedIdx.reverse.drop k := by
      rw [List.take_append_drop]; exact hjr
    have hjd : j ∈ sortedIdx.reverse.drop k := by
      rcases List.mem_append.mp hjsplit with h | h
      · exact absurd h hnot
      · exact h
    exact hcross i hi j hjd

/-- Witness for C9 at the tied two-element vector under the small-array
argsort outcome with `topk = 1`: non-increasing ordering of the emitted list
and domination of the excluded index 0 by the included index 1. -/
theorem c9_witness :
    List.Pairwise
      (fun i j => ([1, 1] : List Rat).getD j 0 ≤ ([1, 1] : List Rat).getD i 0)
      (topk_idx (argsortSmall [1, 1]) 1) ∧
    ([1, 1] : List Rat).getD 0 0 ≤ ([1, 1] : List Rat).getD 1 0 :=
  ⟨(c9_topk_descending_unspecified_ties [] 1 [1, 1] (argsortSmall [1, 1]) 1
      (argsortSmall_spec [1, 1])).2.2.2.1,
   (c9_topk_descending_unspecified_ties [] 1 [1, 1] (argsortSmall [1, 1]) 1
      (argsortSmall_spec [1, 1])).2.2.2.2 1 (by decide) 0 (by decide) (by decide)⟩
